import Mathlib

/-!
Verification development for the repository-scan pipeline of the
Gemini code-review client. The TypeScript sources are shallowly embedded:
JS strings are Lean strings (with character-level helpers mirroring the JS
string methods actually used), network calls become oracle functions passed
in explicitly, thrown exceptions become `Except String`, and React state
updates during a scan are collected into explicit traces (progress events,
fetched paths) and a final outcome value.
-/

namespace CodeReview

/-! ## JS string helpers

These model the exact JS string methods the source uses:
`toLowerCase` (ASCII), single-character `split`, and `Array.prototype.pop`
(modelled by `List.getLastD`, matching `pop() || ''` / `pop()` on the
always-nonempty results of `split`). -/

/-- Model of JS `String.prototype.toLowerCase` (ASCII range, which is all
the source's tables use). -/
def jsToLower (s : String) : String := String.mk (s.data.map Char.toLower)

/-- Model of JS `String.prototype.trim`: drop leading and trailing
whitespace. -/
def jsTrim (s : String) : String :=
  String.mk (((s.data.dropWhile Char.isWhitespace).reverse.dropWhile Char.isWhitespace).reverse)

/-- Model of JS `String.prototype.split` with a single-character separator:
splits at every occurrence, keeping empty segments, and yields one segment
even for the empty string. -/
def splitChar (sep : Char) : List Char → List (List Char)
  | [] => [[]]
  | c :: cs =>
    let r := splitChar sep cs
    if c = sep then [] :: r
    else
      match r with
      | [] => [[c]]
      | s :: rest => (c :: s) :: rest

/-- Lower-cased final path segment: `filePath.toLowerCase().split('/').pop() || ''`,
the expression shared by `isReviewableFile` and `getLanguageForFile`. -/
def lowerBasename (filePath : String) : String :=
  String.mk ((splitChar '/' (jsToLower filePath).data).getLastD [])

/-! ## Classifier configuration (src/MainApp.tsx constants variants) -/

/-- Set of file extensions considered for review (set-based constants variant). -/
def REVIEWABLE_EXTENSIONS : List String := [
  ".js", ".jsx", ".ts", ".tsx", ".py", ".java", ".cpp", ".h", ".hpp",
  ".cs", ".go", ".rs", ".rb", ".php", ".swift", ".kt", ".sql", ".html",
  ".css", ".scss", ".less", ".vue", ".svelte", ".md", ".json", ".yaml", ".yml",
  ".sh", ".bash", ".toml", ".xml", ".env.example", ".gitignore"]

/-- Set of specific filenames considered for review (set-based constants variant). -/
def REVIEWABLE_FILENAMES : List String := [
  "dockerfile",
  "makefile",
  "gemfile",
  "package.json",
  "composer.json",
  "requirements.txt"]

/-- Extension/filename to language table (classifier constants variant),
entries in source order. -/
def LANGUAGE_MAP : List (String × String) := [
  (".js", "JavaScript"),
  (".jsx", "JavaScript"),
  (".mjs", "JavaScript"),
  (".cjs", "JavaScript"),
  (".ts", "TypeScript"),
  (".tsx", "TypeScript"),
  (".py", "Python"),
  (".java", "Java"),
  (".cpp", "C++"),
  (".c", "C"),
  (".h", "C"),
  (".hpp", "C++"),
  (".cs", "C#"),
  (".go", "Go"),
  (".rs", "Rust"),
  (".rb", "Ruby"),
  (".php", "PHP"),
  (".swift", "Swift"),
  (".kt", "Kotlin"),
  (".sql", "SQL"),
  (".html", "HTML"),
  (".css", "CSS"),
  (".scss", "CSS"),
  (".less", "CSS"),
  (".sh", "Shell"),
  (".bash", "Shell"),
  (".json", "JSON"),
  (".yaml", "YAML"),
  (".yml", "YAML"),
  (".xml", "XML"),
  (".md", "Markdown"),
  (".dart", "Dart"),
  (".lua", "Lua"),
  (".pl", "Perl"),
  (".svelte", "Svelte"),
  (".vue", "Vue"),
  (".tf", "Terraform"),
  (".hcl", "Terraform"),
  (".gradle", "Groovy"),
  ("dockerfile", "Dockerfile"),
  ("makefile", "Makefile"),
  ("gemfile", "Ruby"),
  ("pipfile", "TOML"),
  ("requirements.txt", "Text"),
  ("package.json", "JSON"),
  ("package-lock.json", "JSON"),
  ("yarn.lock", "YAML"),
  ("composer.json", "JSON"),
  (".gitignore", "Git"),
  (".dockerignore", "Git"),
  ("jenkinsfile", "Groovy"),
  ("procfile", "Text"),
  (".env", "Text"),
  (".env.example", "Text")]

/-- Set-based reviewability check (src/MainApp.tsx lines 400-414): the
extension is taken from the last `.` of the whole lowered path, the filename
from its last `/` segment. -/
def isReviewableFile (filePath : String) : Bool :=
  let lowerFilePath := jsToLower filePath
  let extension := String.mk ('.' :: (splitChar '.' lowerFilePath.data).getLastD [])
  let filename := lowerBasename filePath
  if REVIEWABLE_FILENAMES.contains filename then true
  else if REVIEWABLE_EXTENSIONS.contains extension then true
  else false

/-- Language detection (src/MainApp.tsx lines 488-504): exact lowered
filename match first, then the `.`-prefixed last `.`-segment of the filename. -/
def getLanguageForFile (filePath : String) : Option String :=
  match LANGUAGE_MAP.lookup (lowerBasename filePath) with
  | some lang => some lang
  | none =>
    LANGUAGE_MAP.lookup
      (String.mk ('.' :: (splitChar '.' (lowerBasename filePath).data).getLastD []))

/-- Classifier-based reviewability check (src/MainApp.tsx lines 512-515):
a file is reviewable if its language can be determined. -/
def isReviewableFile' (filePath : String) : Bool :=
  (getLanguageForFile filePath).isSome

/-- Modelled from the spec: section 4.2 defines
isReviewable(path) := classify(path) != null. -/
def isReviewable_spec (filePath : String) : Prop :=
  getLanguageForFile filePath ≠ none

/-! ## GitHub service (src/unnamed/part_004, githubService)

Network responses are supplied by a `GitHubApi` environment; the `fetch`
calls of the source become lookups in that environment. `res.ok` is the
WHATWG condition `200 <= status < 300`. Thrown `Error(msg)` becomes
`Except.error msg`. -/

/-- Owner/repository pair produced by `parseGitHubUrl`. -/
structure RepoRef where
  owner : String
  repo : String
deriving DecidableEq

/-- Parse of the regex capture `[^/]+\/[^/]+`: greedy owner segment, a
slash, then a greedy nonempty repo segment. -/
def parseOwnerRepo (l : List Char) : Option (List Char × List Char) :=
  let owner := l.takeWhile (fun c => c ≠ '/')
  if owner.isEmpty then none
  else
    match l.dropWhile (fun c => c ≠ '/') with
    | '/' :: rest =>
      let repo := rest.takeWhile (fun c => c ≠ '/')
      if repo.isEmpty then none else some (owner, repo)
    | _ => none

/-- Regex search for `github\.com\/([^/]+\/[^/]+)` over all start positions,
left to right, as the JS regex engine does. -/
def findGitHubMatch : List Char → Option (List Char × List Char)
  | [] => none
  | c :: cs =>
    if ("github.com/".data).isPrefixOf (c :: cs) then
      match parseOwnerRepo ((c :: cs).drop 11) with
      | some r => some r
      | none => findGitHubMatch cs
    else findGitHubMatch cs

/-- Model of `parseGitHubUrl` (src/unnamed/part_004): extracts the owner and
repository name from the first place the GitHub URL pattern matches. -/
def parseGitHubUrl (url : String) : Option RepoRef :=
  match findGitHubMatch url.data with
  | some (owner, repo) => some ⟨String.mk owner, String.mk repo⟩
  | none => none

/-- Response to one upstream `fetch`, with the parsed JSON body the source
reads on the success path. -/
structure HttpResponse (α : Type) where
  status : Nat
  body : α

/-- Model of `Response.ok`: status in the 2xx range. -/
def HttpResponse.isOk {α : Type} (r : HttpResponse α) : Bool :=
  decide (200 ≤ r.status) && decide (r.status < 300)

/-- Tree entry type as typed in the source: 'blob' | 'tree'. -/
inductive GitObjectType where
  | blob : GitObjectType
  | tree : GitObjectType
deriving DecidableEq

/-- One entry of the recursive tree response. -/
structure GitHubFile where
  path : String
  type : GitObjectType
deriving DecidableEq

/-- Body of the recursive-tree endpoint response. -/
structure GitHubTreeResponse where
  tree : List GitHubFile
  truncated : Bool
deriving DecidableEq

/-- Body of the repository-metadata endpoint response. -/
structure GitHubRepoResponse where
  default_branch : String
deriving DecidableEq

/-- Nested `commit.tree` object of the branch endpoint response. -/
structure GitHubCommitDetail where
  tree_sha : String
deriving DecidableEq

/-- Nested `commit` object of the branch endpoint response, holding the head
commit sha and its tree. -/
structure GitHubCommitNode where
  sha : String
  commit : GitHubCommitDetail
deriving DecidableEq

/-- Body of the branch endpoint response. -/
structure GitHubBranchResponse where
  commit : GitHubCommitNode
deriving DecidableEq

/-- Body of the contents endpoint response; `encoding` is the constant
'base64' in the source's type and is not inspected. -/
structure GitHubContentResponse where
  content : String
deriving DecidableEq

/-- Environment supplying the four upstream endpoints: repository metadata,
branch info by branch name, tree by sha, and file content by path. -/
structure GitHubApi where
  repoInfo : HttpResponse GitHubRepoResponse
  branchInfo : String → HttpResponse GitHubBranchResponse
  treeData : String → HttpResponse GitHubTreeResponse
  fileContent : String → HttpResponse GitHubContentResponse

/-- Environment whose branch/tree/content endpoints ignore their argument;
used to state theorems over arbitrary single-scan response values. -/
def constApi (repoR : HttpResponse GitHubRepoResponse)
    (branchR : HttpResponse GitHubBranchResponse)
    (treeR : HttpResponse GitHubTreeResponse)
    (contentR : HttpResponse GitHubContentResponse) : GitHubApi :=
  ⟨repoR, fun _ => branchR, fun _ => treeR, fun _ => contentR⟩

/-- Rate-limit error message shared by all three tree-fetch steps. -/
def rateLimitedMsg : String :=
  "GitHub API rate limit exceeded (60 requests/hour for unauthenticated users). Please wait a moment and try again."

/-- Not-found error message of the repository-metadata step. -/
def repoNotFoundMsg : String :=
  "Repository not found. Please check the URL and ensure the repository is public."

/-- Model of `fetchRepoFileTree` (src/unnamed/part_004 lines 55-99): parse
the URL, then three dependent steps (repository metadata, branch reference,
recursive tree), each mapping non-2xx statuses to thrown error messages;
finally keep only blob entries' paths. -/
def fetchRepoFileTree (api : GitHubApi) (repoUrl : String) :
    Except String (List String) :=
  match parseGitHubUrl repoUrl with
  | none => Except.error ("Invalid GitHub repository URL.")
  | some _ =>
    let repoInfoRes := api.repoInfo
    if !repoInfoRes.isOk then
      if repoInfoRes.status = 404 then Except.error repoNotFoundMsg
      else if repoInfoRes.status = 403 then Except.error rateLimitedMsg
      else Except.error ("Could not fetch repository info (status: " ++ toString repoInfoRes.status ++ ").")
    else
      let defaultBranch := repoInfoRes.body.default_branch
      let branchInfoRes := api.branchInfo defaultBranch
      if !branchInfoRes.isOk then
        if branchInfoRes.status = 403 then Except.error rateLimitedMsg
        else Except.error ("Could not fetch branch info (status: " ++ toString branchInfoRes.status ++ ").")
      else
        let treeSha := branchInfoRes.body.commit.commit.tree_sha
        let treeRes := api.treeData treeSha
        if !treeRes.isOk then
          if treeRes.status = 403 then Except.error rateLimitedMsg
          else Except.error ("Could not fetch file tree (status: " ++ toString treeRes.status ++ ").")
        else
          Except.ok (((treeRes.body.tree.filter (fun i => i.type = GitObjectType.blob)).map GitHubFile.path))

/-! ### Base64 decoding (`atob`)

WHATWG forgiving-base64: strip ASCII whitespace, strip up to two trailing
`=` when the length is a multiple of four, fail when the remaining length
is 1 mod 4 or any character is outside the alphabet, else decode 6-bit
groups to bytes (returned as a latin-1 string). -/

/-- Value of one base64 alphabet character, none for anything else. -/
def base64Val (c : Char) : Option Nat :=
  if 'A' ≤ c ∧ c ≤ 'Z' then some (c.toNat - 65)
  else if 'a' ≤ c ∧ c ≤ 'z' then some (c.toNat - 71)
  else if '0' ≤ c ∧ c ≤ '9' then some (c.toNat + 4)
  else if c = '+' then some 62
  else if c = '/' then some 63
  else none

/-- Drop one or two trailing padding characters. -/
def stripBase64Pad (l : List Char) : List Char :=
  if l.getLast? = some '=' then
    let l1 := l.dropLast
    if l1.getLast? = some '=' then l1.dropLast else l1
  else l

/-- Regroup 6-bit values into bytes: four values give three bytes, a final
pair or triple gives one or two bytes. -/
def decodeB64 : List Nat → List Nat
  | a :: b :: c :: d :: rest =>
    (a * 4 + b / 16) :: ((b % 16) * 16 + c / 4) :: ((c % 4) * 64 + d) :: decodeB64 rest
  | [a, b] => [a * 4 + b / 16]
  | [a, b, c] => [a * 4 + b / 16, (b % 16) * 16 + c / 4]
  | _ => []

/-- Model of JS `atob`: forgiving-base64 decode, none when the input is not
valid base64 (the case where the source's `atob` throws). -/
def atob (s : String) : Option String :=
  let cs := s.data.filter (fun c => !(c = ' ' ∨ c = '\t' ∨ c = '\n' ∨ c = '\x0c' ∨ c = '\r'))
  let cs := if cs.length % 4 = 0 then stripBase64Pad cs else cs
  if cs.length % 4 = 1 then none
  else if cs.all (fun c => (base64Val c).isSome) then
    some (String.mk ((decodeB64 (cs.filterMap base64Val)).map Char.ofNat))
  else none

/-- Model of `getFileContent` (src/unnamed/part_004 lines 108-126): fetch the
contents endpoint, map 403 and other non-2xx statuses to thrown messages,
then base64-decode; a decode failure is caught and RETURNED as a marker
string, not rethrown. -/
def getFileContent (api : GitHubApi) (owner repo path : String) :
    Except String String :=
  let contentRes := api.fileContent path
  if !contentRes.isOk then
    if contentRes.status = 403 then
      Except.error ("GitHub API rate limit exceeded for this file.")
    else
      Except.error ("Failed to fetch content for " ++ path ++ " (status: " ++ toString contentRes.status ++ ").")
  else
    match atob contentRes.body.content with
    | some text => Except.ok text
    | none => Except.ok ("// Error: Could not decode content for " ++ path)

/-! ## MainApp orchestrator (src/MainApp.tsx, handleAutonomousReview)

The per-file content fetch and review invocations become oracles
`gc : path -> Except String content` and
`rv : content -> language -> path -> Except String feedback` (an
`Except.error` is a thrown exception whose `.message` the catch reads).
Every `setRepoProgress` call is recorded in a trace (`none` is the reset to
null in the `finally` block); every `getFileContent` call is recorded in a
fetched-paths trace. The markdown rendering of the feedback (`marked.parse`)
is presentation and not modelled; `rawFeedback` is kept. -/

/-- Successful review entry pushed by the MainApp loop. -/
structure FileReview where
  path : String
  rawFeedback : String
deriving DecidableEq

/-- Failure entry pushed by the MainApp loop's catch. -/
structure FileError where
  path : String
  error : String
deriving DecidableEq

/-- Executive summary set at the end of a completed MainApp scan. -/
structure RepoScanSummary where
  total : Nat
  analyzed : Nat
  withIssues : Nat
  errors : Nat
deriving DecidableEq

/-- Result of the body of one MainApp loop iteration. -/
inductive FileStep where
  | skip : FileStep
  | failed : String → FileStep
  | reviewed : String → FileStep
  | clean : FileStep
deriving DecidableEq

/-- Body of one MainApp loop iteration (src/MainApp.tsx lines 144-157):
skip when the language is unknown, otherwise fetch content then review; a
thrown error gives `failed`, feedback trimming to the exact sentinel gives
`clean`, anything else is `reviewed`. -/
def processFile (gc : String → Except String String)
    (rv : String → String → String → Except String String)
    (p : String) : FileStep :=
  match getLanguageForFile p with
  | none => FileStep.skip
  | some language =>
    match gc p with
    | Except.error e => FileStep.failed e
    | Except.ok content =>
      match rv content language p with
      | Except.error e => FileStep.failed e
      | Except.ok feedback =>
        if jsTrim feedback ≠ "No issues found." then FileStep.reviewed feedback
        else FileStep.clean

/-- Does this step push a `FileError`? -/
def stepFails : FileStep → Bool
  | FileStep.failed _ => true
  | _ => false

/-- Does this step push a `FileReview`? -/
def stepReviewed : FileStep → Bool
  | FileStep.reviewed _ => true
  | _ => false

/-- Does this step call `getFileContent`? Every step except the
unknown-language skip does. -/
def stepFetches : FileStep → Bool
  | FileStep.skip => false
  | _ => true

/-- Accumulated effects of the MainApp loop: pushed reviews and errors in
order, progress events in order, and the paths whose content was fetched. -/
structure LoopOut where
  reviews : List FileReview
  errors : List FileError
  progress : List (Nat × Nat)
  fetched : List String
deriving DecidableEq

/-- The MainApp `for` loop (src/MainApp.tsx lines 141-158) over the
remaining reviewable files, with `i` the current index and `total` the
reviewable count: emit progress `(i+1, total)`, run the body, continue. -/
def reviewLoop (gc : String → Except String String)
    (rv : String → String → String → Except String String)
    (total : Nat) : List String → Nat → LoopOut
  | [], _ => ⟨[], [], [], []⟩
  | p :: rest, i =>
    let r := reviewLoop gc rv total rest (i + 1)
    match processFile gc rv p with
    | FileStep.skip => ⟨r.reviews, r.errors, (i + 1, total) :: r.progress, r.fetched⟩
    | FileStep.failed e =>
      ⟨r.reviews, ⟨p, e⟩ :: r.errors, (i + 1, total) :: r.progress, p :: r.fetched⟩
    | FileStep.reviewed feedback =>
      ⟨⟨p, feedback⟩ :: r.reviews, r.errors, (i + 1, total) :: r.progress, p :: r.fetched⟩
    | FileStep.clean => ⟨r.reviews, r.errors, (i + 1, total) :: r.progress, p :: r.fetched⟩

/-- Terminal state of one MainApp scan: `done` freezes the pushed reviews,
errors and the summary; `aborted` carries the surfaced error message and
produces no summary. -/
inductive ScanOutcome where
  | done : List FileReview → List FileError → RepoScanSummary → ScanOutcome
  | aborted : String → ScanOutcome
deriving DecidableEq

/-- Did the scan complete (reach the summary) rather than abort? -/
def ScanOutcome.isDone : ScanOutcome → Bool
  | ScanOutcome.done _ _ _ => true
  | ScanOutcome.aborted _ => false

/-- Paths of the Reviewed entries of the final report (empty on abort). -/
def ScanOutcome.reviewPaths : ScanOutcome → List String
  | ScanOutcome.done rs _ _ => rs.map FileReview.path
  | ScanOutcome.aborted _ => []

/-- Paths of the Failed entries of the final report (empty on abort). -/
def ScanOutcome.errorPaths : ScanOutcome → List String
  | ScanOutcome.done _ es _ => es.map FileError.path
  | ScanOutcome.aborted _ => []

/-- Total tree entries of the summary (0 on abort). -/
def ScanOutcome.summaryTotal : ScanOutcome → Nat
  | ScanOutcome.done _ _ s => s.total
  | ScanOutcome.aborted _ => 0

/-- Analyzed (reviewable) count of the summary (0 on abort). -/
def ScanOutcome.summaryAnalyzed : ScanOutcome → Nat
  | ScanOutcome.done _ _ s => s.analyzed
  | ScanOutcome.aborted _ => 0

/-- Issues count of the summary (0 on abort). -/
def ScanOutcome.summaryWithIssues : ScanOutcome → Nat
  | ScanOutcome.done _ _ s => s.withIssues
  | ScanOutcome.aborted _ => 0

/-- Error count of the summary (0 on abort). -/
def ScanOutcome.summaryErrors : ScanOutcome → Nat
  | ScanOutcome.done _ _ s => s.errors
  | ScanOutcome.aborted _ => 0

/-- One complete MainApp scan: its outcome plus the observable traces. -/
structure ScanRun where
  outcome : ScanOutcome
  progress : List (Option (Nat × Nat))
  fetched : List String
deriving DecidableEq

/-- Model of MainApp's `handleAutonomousReview` (src/MainApp.tsx lines
112-174) from inside the guards (API key present, URL accepted):
`treeResult` is the outcome of `fetchRepoFileTree`, `urlParts` the outcome
of `parseGitHubUrl`, `filt` the imported `isReviewableFile`. Progress is set
to `{0,0}` up front, to `{0,n}` after filtering, once per file in the loop,
and reset to null in `finally`; a throw before the loop aborts the scan,
which then has no summary. -/
def handleAutonomousReview (filt : String → Bool)
    (treeResult : Except String (List String))
    (urlParts : Option RepoRef)
    (gc : String → Except String String)
    (rv : String → String → String → Except String String) : ScanRun :=
  match treeResult with
  | Except.error e => ⟨ScanOutcome.aborted e, [some (0, 0), none], []⟩
  | Except.ok fileTree =>
    let reviewableFiles := fileTree.filter filt
    let n := reviewableFiles.length
    match urlParts with
    | none =>
      ⟨ScanOutcome.aborted ("Could not parse GitHub URL parts."),
        [some (0, 0), some (0, n), none], []⟩
    | some _ =>
      let r := reviewLoop gc rv n reviewableFiles 0
      ⟨ScanOutcome.done r.reviews r.errors ⟨fileTree.length, n, r.reviews.length, r.errors.length⟩,
        some (0, 0) :: some (0, n) :: (r.progress.map some ++ [none]),
        r.fetched⟩

/-! ## App orchestrator (src/App.tsx, handleAutonomousReview)

The older variant: the URL is parsed first, a zero-reviewable tree throws,
and the loop has NO per-file try/catch — a thrown fetch or review error
propagates to the outer catch, aborting the scan while keeping the reviews
appended so far. The review call receives the user-selected `language`, not
a per-file classification. Empty, very large, or replacement-character
content is skipped. The sentinel comparison lower-cases the feedback. -/

/-- Review entry appended by the App loop. -/
structure AppReview where
  path : String
  feedback : String
deriving DecidableEq

/-- Terminal state of one App scan: `done` with the appended reviews, or
`aborted` with the reviews appended before the throw plus the error message. -/
inductive AppScanOutcome where
  | done : List AppReview → AppScanOutcome
  | aborted : List AppReview → String → AppScanOutcome
deriving DecidableEq

/-- The U+FFFD replacement character tested by the binary-content skip. -/
def replacementChar : Char := Char.ofNat 0xFFFD

/-- The App `for` loop (src/App.tsx lines 84-101): no per-file handler, so
the first thrown error stops the loop with the reviews accumulated so far. -/
def appReviewLoop (gc : String → Except String String)
    (rv : String → String → String → Except String String)
    (language : String) :
    List String → List AppReview → List AppReview × Option String
  | [], acc => (acc, none)
  | p :: rest, acc =>
    match gc p with
    | Except.error e => (acc, some e)
    | Except.ok content =>
      if content = "" ∨ 150000 < content.length ∨ content.data.contains replacementChar then
        appReviewLoop gc rv language rest acc
      else
        match rv content language p with
        | Except.error e => (acc, some e)
        | Except.ok feedback =>
          if jsToLower (jsTrim feedback) ≠ "no issues found." then
            appReviewLoop gc rv language rest (acc ++ [⟨p, feedback⟩])
          else
            appReviewLoop gc rv language rest acc

/-- Model of App's `handleAutonomousReview` (src/App.tsx lines 59-109):
parse the URL, take the fetched tree, filter, throw when nothing is
reviewable, then run the unprotected loop. -/
def appHandleAutonomousReview (filt : String → Bool)
    (urlParts : Option RepoRef)
    (treeResult : Except String (List String))
    (language : String)
    (gc : String → Except String String)
    (rv : String → String → String → Except String String) : AppScanOutcome :=
  match urlParts with
  | none => AppScanOutcome.aborted [] ("Invalid GitHub URL provided. Please check the format.")
  | some _ =>
    match treeResult with
    | Except.error e => AppScanOutcome.aborted [] e
    | Except.ok files =>
      let reviewableFiles := files.filter filt
      if reviewableFiles.length = 0 then
        AppScanOutcome.aborted [] ("No reviewable source code files were found in this repository.")
      else
        match appReviewLoop gc rv language reviewableFiles [] with
        | (acc, none) => AppScanOutcome.done acc
        | (acc, some e) => AppScanOutcome.aborted acc e

/-! ## Concrete oracles used by witnesses and counterexamples -/

/-- Content oracle that always succeeds. -/
def gcOk : String → Except String String := fun _ => Except.ok ("let x = 1")

/-- Content oracle that fails exactly on `b.py` with a NotFound-style error. -/
def gcFailB : String → Except String String := fun p =>
  if p = "b.py" then Except.error ("Not Found") else Except.ok ("let x = 1")

/-- Content oracle that always throws. -/
def gcBoom : String → Except String String := fun _ => Except.error ("boom")

/-- Review oracle returning a fixed non-sentinel feedback. -/
def rvIssue : String → String → String → Except String String :=
  fun _ _ _ => Except.ok ("Consider renaming x.")

/-- Review oracle returning the sentinel in lower case. -/
def rvLowerSentinel : String → String → String → Except String String :=
  fun _ _ _ => Except.ok ("no issues found.")

/-- Review oracle returning the exact sentinel with surrounding whitespace. -/
def rvPaddedSentinel : String → String → String → Except String String :=
  fun _ _ _ => Except.ok ("  No issues found. ")

/-- Review oracle returning the sentinel in upper case. -/
def rvUpperSentinel : String → String → String → Except String String :=
  fun _ _ _ => Except.ok ("NO ISSUES FOUND.")

/-! ## Helper lemmas -/

/-- Splitting at a character that does not occur yields the whole list as
the single segment. -/
theorem splitChar_of_not_mem (sep : Char) (l : List Char) (h : sep ∉ l) :
    splitChar sep l = [l] := by
  induction l with
  | nil => rfl
  | cons c cs ih =>
    have hc : ¬(c = sep) := by
      intro hcs
      exact h (hcs ▸ List.mem_cons_self c cs)
    have hcs : sep ∉ cs := fun hm => h (List.mem_cons_of_mem c hm)
    simp [splitChar, hc, ih hcs]

/-- Prefixing a string's characters with a dot is appending to the literal
dot string. -/
theorem string_dot_cons (s : String) : String.mk ('.' :: s.data) = "." ++ s := by
  cases s with
  | mk d => rfl

/-- An unclassifiable file is skipped by the MainApp loop body. -/
theorem processFile_of_lang_none (gc : String → Except String String)
    (rv : String → String → String → Except String String) (p : String)
    (h : getLanguageForFile p = none) : processFile gc rv p = FileStep.skip := by
  simp [processFile, h]

/-- Failed entries of the MainApp loop are exactly the files whose body
raised, in order. -/
theorem reviewLoop_errors_map (gc : String → Except String String)
    (rv : String → String → String → Except String String) (t : Nat) :
    ∀ (files : List String) (i : Nat),
      ((reviewLoop gc rv t files i).errors).map FileError.path
        = files.filter (fun p => stepFails (processFile gc rv p)) := by
  intro files
  induction files with
  | nil => intro i; rfl
  | cons p rest ih =>
    intro i
    cases hstep : processFile gc rv p <;>
      simp [reviewLoop, hstep, ih (i + 1), stepFails]

/-- Reviewed entries of the MainApp loop are exactly the files whose body
produced non-sentinel feedback, in order. -/
theorem reviewLoop_reviews_map (gc : String → Except String String)
    (rv : String → String → String → Except String String) (t : Nat) :
    ∀ (files : List String) (i : Nat),
      ((reviewLoop gc rv t files i).reviews).map FileReview.path
        = files.filter (fun p => stepReviewed (processFile gc rv p)) := by
  intro files
  induction files with
  | nil => intro i; rfl
  | cons p rest ih =>
    intro i
    cases hstep : processFile gc rv p <;>
      simp [reviewLoop, hstep, ih (i + 1), stepReviewed]

/-- Content is fetched exactly for the files whose language is known, in
order. -/
theorem reviewLoop_fetched (gc : String → Except String String)
    (rv : String → String → String → Except String String) (t : Nat) :
    ∀ (files : List String) (i : Nat),
      (reviewLoop gc rv t files i).fetched
        = files.filter (fun p => stepFetches (processFile gc rv p)) := by
  intro files
  induction files with
  | nil => intro i; rfl
  | cons p rest ih =>
    intro i
    cases hstep : processFile gc rv p <;>
      simp [reviewLoop, hstep, ih (i + 1), stepFetches]

/-- The MainApp loop emits one progress event per file, with consecutive
indices starting after `i` and the constant total. -/
theorem reviewLoop_progress (gc : String → Except String String)
    (rv : String → String → String → Except String String) (t : Nat) :
    ∀ (files : List String) (i : Nat),
      (reviewLoop gc rv t files i).progress
        = (List.range files.length).map (fun j => (i + (j + 1), t)) := by
  intro files
  induction files with
  | nil => intro i; rfl
  | cons p rest ih =>
    intro i
    have hfun : ∀ j : Nat, (i + 1) + (j + 1) = i + (j + 1 + 1) := by omega
    cases hstep : processFile gc rv p <;>
      simp [reviewLoop, hstep, ih (i + 1), List.range_succ_eq_map, List.map_map,
        Function.comp, hfun]

/-- Each file contributes at most one entry across reviews and errors. -/
theorem reviewLoop_length_le (gc : String → Except String String)
    (rv : String → String → String → Except String String) (t : Nat) :
    ∀ (files : List String) (i : Nat),
      (reviewLoop gc rv t files i).reviews.length
        + (reviewLoop gc rv t files i).errors.length ≤ files.length := by
  intro files
  induction files with
  | nil => intro i; simp [reviewLoop]
  | cons p rest ih =>
    intro i
    have h := ih (i + 1)
    cases hstep : processFile gc rv p <;>
      simp [reviewLoop, hstep] <;> omega

/-! ## Claim theorems -/

/-- C1 (amended): in the MainApp orchestrator, when URL resolution and tree
fetch succeed the scan always reaches Done, and the Failed entries are
exactly the reviewable files (in order, one entry per occurrence) whose
content fetch or review raised; in the App variant the loop has no per-file
handler, so a content-fetch error on the first reviewable file aborts the
scan with that error and no Failed entry. -/
theorem c1_per_file_error_containment :
    (∀ (filt : String → Bool) (tree : List String) (r : RepoRef)
        (gc : String → Except String String)
        (rv : String → String → String → Except String String),
      (handleAutonomousReview filt (Except.ok tree) (some r) gc rv).outcome.isDone = true ∧
      (handleAutonomousReview filt (Except.ok tree) (some r) gc rv).outcome.errorPaths
        = (tree.filter filt).filter (fun p => stepFails (processFile gc rv p))) ∧
    (∀ (filt : String → Bool) (tree : List String) (r : RepoRef) (language : String)
        (gc : String → Except String String)
        (rv : String → String → String → Except String String)
        (p : String) (rest : List String) (e : String),
      tree.filter filt = p :: rest → gc p = Except.error e →
      appHandleAutonomousReview filt (some r) (Except.ok tree) language gc rv
        = AppScanOutcome.aborted [] e) := by
  constructor
  · intro filt tree r gc rv
    exact ⟨rfl, by simp [handleAutonomousReview, ScanOutcome.errorPaths, reviewLoop_errors_map]⟩
  · intro filt tree r language gc rv p rest e hfilt hgc
    simp [appHandleAutonomousReview, hfilt, appReviewLoop, hgc]

/-- Witness for C1: a three-file scan where file 2's content fetch fails
with NotFound yields Done, exactly the Failed entry for file 2, and Reviewed
entries for files 1 and 3; and the same failure on the first file of an App
scan aborts it. -/
theorem c1_per_file_error_containment_witness :
    ((handleAutonomousReview isReviewableFile (Except.ok ["a.py", "b.py", "c.py"])
        (some ⟨"o", "r"⟩) gcFailB rvIssue).outcome.isDone = true ∧
     (handleAutonomousReview isReviewableFile (Except.ok ["a.py", "b.py", "c.py"])
        (some ⟨"o", "r"⟩) gcFailB rvIssue).outcome.errorPaths
       = ((["a.py", "b.py", "c.py"].filter isReviewableFile).filter
            (fun p => stepFails (processFile gcFailB rvIssue p)))) ∧
    ((["a.py", "b.py", "c.py"].filter isReviewableFile).filter
        (fun p => stepFails (processFile gcFailB rvIssue p)) = ["b.py"]) ∧
    (handleAutonomousReview isReviewableFile (Except.ok ["a.py", "b.py", "c.py"])
        (some ⟨"o", "r"⟩) gcFailB rvIssue).outcome.reviewPaths = ["a.py", "c.py"] ∧
    appHandleAutonomousReview isReviewableFile (some ⟨"o", "r"⟩) (Except.ok ["x.py"])
        ("Python") gcBoom rvIssue = AppScanOutcome.aborted [] ("boom") :=
  ⟨c1_per_file_error_containment.1 isReviewableFile ["a.py", "b.py", "c.py"] ⟨"o", "r"⟩ gcFailB rvIssue,
   by rfl, by rfl,
   c1_per_file_error_containment.2 isReviewableFile ["x.py"] ⟨"o", "r"⟩ ("Python") gcBoom rvIssue
     ("x.py") [] ("boom") (by rfl) (by rfl)⟩

/-- Counterexample to C1 as stated: in the App orchestrator (src/App.tsx,
also cited by the claim), the spec's own partial-failure scenario — three
reviewable files, file 2's content fetch failing with NotFound — aborts the
scan with the error instead of reaching Done: file 3 is never processed and
no Failed entry is recorded anywhere. -/
theorem c1_counterexample :
    appHandleAutonomousReview isReviewableFile (some ⟨"o", "r"⟩)
        (Except.ok ["a.py", "b.py", "c.py"]) ("Python") gcFailB rvIssue
      = AppScanOutcome.aborted [⟨"a.py", "Consider renaming x."⟩] ("Not Found") := by rfl

/-- C2 (amended): the full status mapping (404 to NotFound, 403 to
RateLimited, other non-2xx to the generic upstream error) holds only in the
repository-metadata step; in the branch and tree steps only 403 is
distinguished, and every other non-2xx status — including 404 — produces the
generic upstream error message. -/
theorem c2_fetch_tree_status_mapping
    (repoR : HttpResponse GitHubRepoResponse)
    (branchR : HttpResponse GitHubBranchResponse)
    (treeR : HttpResponse GitHubTreeResponse)
    (contentR : HttpResponse GitHubContentResponse) :
    (repoR.isOk = false →
      fetchRepoFileTree (constApi repoR branchR treeR contentR) ("https://github.com/octo/repo")
        = Except.error (if repoR.status = 404 then repoNotFoundMsg
            else if repoR.status = 403 then rateLimitedMsg
            else "Could not fetch repository info (status: " ++ toString repoR.status ++ ").")) ∧
    (repoR.isOk = true → branchR.isOk = false →
      fetchRepoFileTree (constApi repoR branchR treeR contentR) ("https://github.com/octo/repo")
        = Except.error (if branchR.status = 403 then rateLimitedMsg
            else "Could not fetch branch info (status: " ++ toString branchR.status ++ ").")) ∧
    (repoR.isOk = true → branchR.isOk = true → treeR.isOk = false →
      fetchRepoFileTree (constApi repoR branchR treeR contentR) ("https://github.com/octo/repo")
        = Except.error (if treeR.status = 403 then rateLimitedMsg
            else "Could not fetch file tree (status: " ++ toString treeR.status ++ ").")) := by
  have hp : parseGitHubUrl ("https://github.com/octo/repo") = some ⟨"octo", "repo"⟩ := by rfl
  refine ⟨?_, ?_, ?_⟩
  · intro h1
    by_cases h404 : repoR.status = 404 <;> by_cases h403 : repoR.status = 403 <;>
      simp [fetchRepoFileTree, constApi, hp, h1, h404, h403]
  · intro h1 h2
    by_cases h403 : branchR.status = 403 <;>
      simp [fetchRepoFileTree, constApi, hp, h1, h2, h403]
  · intro h1 h2 h3
    by_cases h403 : treeR.status = 403 <;>
      simp [fetchRepoFileTree, constApi, hp, h1, h2, h3, h403]

/-- Witness for C2: a 2xx metadata response followed by a 404 branch
response produces the generic branch error message. -/
theorem c2_fetch_tree_status_mapping_witness :
    ((⟨200, ⟨"main"⟩⟩ : HttpResponse GitHubRepoResponse).isOk = true) ∧
    ((⟨404, ⟨⟨"c", ⟨"t"⟩⟩⟩⟩ : HttpResponse GitHubBranchResponse).isOk = false) ∧
    fetchRepoFileTree (constApi ⟨200, ⟨"main"⟩⟩ ⟨404, ⟨⟨"c", ⟨"t"⟩⟩⟩⟩ ⟨200, ⟨[], false⟩⟩ ⟨200, ⟨""⟩⟩)
        ("https://github.com/octo/repo")
      = Except.error (if (404 : Nat) = 403 then rateLimitedMsg
          else "Could not fetch branch info (status: " ++ toString (404 : Nat) ++ ").") ∧
    (if (404 : Nat) = 403 then rateLimitedMsg
        else "Could not fetch branch info (status: " ++ toString (404 : Nat) ++ ").")
      = "Could not fetch branch info (status: 404)." :=
  ⟨by rfl, by rfl,
   (c2_fetch_tree_status_mapping ⟨200, ⟨"main"⟩⟩ ⟨404, ⟨⟨"c", ⟨"t"⟩⟩⟩⟩ ⟨200, ⟨[], false⟩⟩
      ⟨200, ⟨""⟩⟩).2.1 (by rfl) (by rfl),
   by rfl⟩

/-- Counterexample to C2 as stated: a 404 on the branch-reference step (the
second network step) fails with the generic upstream message, not with the
NotFound error the claim asserts for every step. -/
theorem c2_counterexample :
    fetchRepoFileTree (constApi ⟨200, ⟨"main"⟩⟩ ⟨404, ⟨⟨"c", ⟨"t"⟩⟩⟩⟩ ⟨200, ⟨[], false⟩⟩ ⟨200, ⟨""⟩⟩)
        ("https://github.com/octo/repo")
      = Except.error ("Could not fetch branch info (status: 404).") ∧
    (("Could not fetch branch info (status: 404)." == repoNotFoundMsg) = false) ∧
    (("Could not fetch branch info (status: 404)." == rateLimitedMsg) = false) :=
  ⟨by rfl, by rfl, by rfl⟩

/-- C3 (amended): in the MainApp orchestrator the sentinel check is
whitespace-insensitive but case-SENSITIVE — Reviewed entries are appended
exactly for the files whose (successful) feedback does not trim to the
exact string "No issues found.", so casing variants are NOT elided there;
the App variant lower-cases the trimmed feedback before comparing, so it
also elides casing variants. -/
theorem c3_sentinel_elision :
    (∀ (filt : String → Bool) (tree : List String) (r : RepoRef)
        (gc : String → Except String String)
        (rv : String → String → String → Except String String),
      (handleAutonomousReview filt (Except.ok tree) (some r) gc rv).outcome.reviewPaths
        = (tree.filter filt).filter (fun p => stepReviewed (processFile gc rv p))) ∧
    (∀ (gc : String → Except String String)
        (rv : String → String → String → Except String String)
        (language p content feedback : String),
      gc p = Except.ok content → rv content language p = Except.ok feedback →
      jsToLower (jsTrim feedback) = "no issues found." →
      appReviewLoop gc rv language [p] [] = ([], none)) := by
  constructor
  · intro filt tree r gc rv
    simp [handleAutonomousReview, ScanOutcome.reviewPaths, reviewLoop_reviews_map]
  · intro gc rv language p content feedback h1 h2 h3
    simp only [appReviewLoop, h1]
    by_cases hskip : content = "" ∨ 150000 < content.length ∨ content.data.contains replacementChar
    · rw [if_pos hskip]
    · rw [if_neg hskip]
      simp [h2, h3, appReviewLoop]

/-- Witness for C3: the exact sentinel with surrounding whitespace is elided
by MainApp, and an upper-case sentinel is elided by the App loop. -/
theorem c3_sentinel_elision_witness :
    ((handleAutonomousReview isReviewableFile (Except.ok ["a.py"]) (some ⟨"o", "r"⟩)
        gcOk rvPaddedSentinel).outcome.reviewPaths
      = (["a.py"].filter isReviewableFile).filter
          (fun p => stepReviewed (processFile gcOk rvPaddedSentinel p))) ∧
    ((["a.py"].filter isReviewableFile).filter
        (fun p => stepReviewed (processFile gcOk rvPaddedSentinel p)) = []) ∧
    appReviewLoop gcOk rvUpperSentinel ("Python") ["a.py"] [] = ([], none) :=
  ⟨c3_sentinel_elision.1 isReviewableFile ["a.py"] ⟨"o", "r"⟩ gcOk rvPaddedSentinel,
   by rfl,
   c3_sentinel_elision.2 gcOk rvUpperSentinel ("Python") ("a.py") ("let x = 1")
     ("NO ISSUES FOUND.") (by rfl) (by rfl) (by rfl)⟩

/-- Counterexample to C3 as stated: in MainApp (cited by the claim), a review
returning the casing variant "no issues found." is NOT elided — it produces a
Reviewed entry and is counted as an issue in the summary. -/
theorem c3_counterexample :
    (handleAutonomousReview isReviewableFile (Except.ok ["a.py"]) (some ⟨"o", "r"⟩)
        gcOk rvLowerSentinel).outcome
      = ScanOutcome.done [⟨"a.py", "no issues found."⟩] [] ⟨1, 1, 1, 0⟩ := by rfl

/-- C4 (amended): the App variant aborts with the no-reviewable-files error,
processing zero files, when no tree entry passes the filter; the MainApp
variant has no such guard — it completes in Done, producing a summary report
with analyzed = 0 and empty results. -/
theorem c4_zero_reviewable :
    (∀ (filt : String → Bool) (tree : List String) (r : RepoRef) (language : String)
        (gc : String → Except String String)
        (rv : String → String → String → Except String String),
      (tree.filter filt).length = 0 →
      appHandleAutonomousReview filt (some r) (Except.ok tree) language gc rv
        = AppScanOutcome.aborted [] ("No reviewable source code files were found in this repository.")) ∧
    (∀ (filt : String → Bool) (tree : List String) (r : RepoRef)
        (gc : String → Except String String)
        (rv : String → String → String → Except String String),
      tree.filter filt = [] →
      handleAutonomousReview filt (Except.ok tree) (some r) gc rv
        = ⟨ScanOutcome.done [] [] ⟨tree.length, 0, 0, 0⟩, [some (0, 0), some (0, 0), none], []⟩) := by
  constructor
  · intro filt tree r language gc rv h
    simp [appHandleAutonomousReview, h]
  · intro filt tree r gc rv h
    simp [handleAutonomousReview, h, reviewLoop]

/-- Witness for C4: a tree whose only path has an unmapped name aborts the
App scan and completes the MainApp scan with an empty report. -/
theorem c4_zero_reviewable_witness :
    appHandleAutonomousReview isReviewableFile (some ⟨"o", "r"⟩) (Except.ok ["readme"])
        ("Python") gcOk rvIssue
      = AppScanOutcome.aborted [] ("No reviewable source code files were found in this repository.") ∧
    handleAutonomousReview isReviewableFile (Except.ok ["readme"]) (some ⟨"o", "r"⟩) gcOk rvIssue
      = ⟨ScanOutcome.done [] [] ⟨1, 0, 0, 0⟩, [some (0, 0), some (0, 0), none], []⟩ :=
  ⟨c4_zero_reviewable.1 isReviewableFile ["readme"] ⟨"o", "r"⟩ ("Python") gcOk rvIssue (by rfl),
   c4_zero_reviewable.2 isReviewableFile ["readme"] ⟨"o", "r"⟩ gcOk rvIssue (by rfl)⟩

/-- Counterexample to C4 as stated: in MainApp (cited by the claim), a tree
with zero reviewable entries does NOT abort — the scan reaches Done and
produces a report (summary with analyzed = 0), contradicting
"Aborted(NoReviewableFiles) ... no report at all". -/
theorem c4_counterexample :
    (handleAutonomousReview isReviewableFile (Except.ok ["readme"]) (some ⟨"o", "r"⟩)
        gcOk rvIssue).outcome = ScanOutcome.done [] [] ⟨1, 0, 0, 0⟩ ∧
    (handleAutonomousReview isReviewableFile (Except.ok ["readme"]) (some ⟨"o", "r"⟩)
        gcOk rvIssue).outcome.isDone = true :=
  ⟨by rfl, by rfl⟩

/-- C5 (amended): for a path whose final lowered segment contains no dot and
is not a special-filename key, the classifier returns the extension-table
entry for the dot-prefixed segment — null when absent (e.g. "makefile2"),
but a language when the segment coincides with an extension key stripped of
its dot (e.g. "py" gives Python). -/
theorem c5_extensionless_classification (p : String)
    (hnodot : '.' ∉ (lowerBasename p).data)
    (hname : LANGUAGE_MAP.lookup (lowerBasename p) = none) :
    getLanguageForFile p = LANGUAGE_MAP.lookup ("." ++ lowerBasename p) := by
  unfold getLanguageForFile
  rw [hname]
  simp [splitChar_of_not_mem '.' ((lowerBasename p).data) hnodot, string_dot_cons]

/-- Witness for C5: the extensionless filename "py" is classified via the
".py" extension entry, yielding Python. -/
theorem c5_extensionless_classification_witness :
    ('.' ∉ (lowerBasename ("py")).data) ∧
    LANGUAGE_MAP.lookup (lowerBasename ("py")) = none ∧
    getLanguageForFile ("py") = LANGUAGE_MAP.lookup ("." ++ lowerBasename ("py")) ∧
    LANGUAGE_MAP.lookup ("." ++ lowerBasename ("py")) = some ("Python") :=
  ⟨by decide, by rfl,
   c5_extensionless_classification ("py") (by decide) (by rfl),
   by rfl⟩

/-- Counterexample to C5 as stated: "py" has no dot in its final segment and
is not a special filename, yet the classifier returns Python, not null. -/
theorem c5_counterexample :
    ((("py" : String).data.contains '.') = false) ∧
    LANGUAGE_MAP.lookup ("py") = none ∧
    getLanguageForFile ("py") = some ("Python") :=
  ⟨by rfl, by rfl, by rfl⟩

/-- C6 (amended): the classifier-based variant satisfies the spec equation
isReviewable(path) = (classify(path) != null), but the two implementations
are NOT extensionally equal: ".toml" paths are reviewable under the
set-based variant yet unclassifiable, and ".c" paths are classifiable yet
not reviewable under the set-based variant. -/
theorem c6_reviewable_variants :
    (∀ p : String, isReviewableFile' p = true ↔ isReviewable_spec p) ∧
    isReviewableFile ("a.toml") = true ∧ isReviewableFile' ("a.toml") = false ∧
    isReviewableFile ("a.c") = false ∧ isReviewableFile' ("a.c") = true := by
  refine ⟨?_, by rfl, by rfl, by rfl, by rfl⟩
  intro p
  simp [isReviewableFile', isReviewable_spec, Option.isSome_iff_ne_none]

/-- Witness for C6: the equivalence instantiated at a classifiable path. -/
theorem c6_reviewable_variants_witness : isReviewable_spec ("a.py") :=
  (c6_reviewable_variants.1 ("a.py")).mp (by rfl)

/-- Counterexample to C6 as stated: the set-based and classifier-based
implementations disagree at "a.toml". -/
theorem c6_counterexample :
    isReviewableFile ("a.toml") = true ∧ isReviewableFile' ("a.toml") = false ∧
    getLanguageForFile ("a.toml") = none :=
  ⟨by rfl, by rfl, by rfl⟩

/-- C7 (amended): when the transport payload cannot be decoded,
getFileContent does NOT fail — it catches the decode error and returns
successfully with the marker string "// Error: Could not decode content for
.", so the orchestrator records no per-file failure for it. -/
theorem c7_decode_failure_returns_marker (api : GitHubApi) (owner repo path : String)
    (hok : (api.fileContent path).isOk = true)
    (hdec : atob (api.fileContent path).body.content = none) :
    getFileContent api owner repo path
      = Except.ok ("// Error: Could not decode content for " ++ path) := by
  simp [getFileContent, hok, hdec]

/-- Witness for C7: an invalid base64 payload yields the marker string. -/
theorem c7_decode_failure_returns_marker_witness :
    ((constApi ⟨200, ⟨"main"⟩⟩ ⟨200, ⟨⟨"c", ⟨"t"⟩⟩⟩⟩ ⟨200, ⟨[], false⟩⟩
        ⟨200, ⟨"!!!!"⟩⟩).fileContent ("src/a.py")).isOk = true ∧
    atob ((constApi ⟨200, ⟨"main"⟩⟩ ⟨200, ⟨⟨"c", ⟨"t"⟩⟩⟩⟩ ⟨200, ⟨[], false⟩⟩
        ⟨200, ⟨"!!!!"⟩⟩).fileContent ("src/a.py")).body.content = none ∧
    getFileContent (constApi ⟨200, ⟨"main"⟩⟩ ⟨200, ⟨⟨"c", ⟨"t"⟩⟩⟩⟩ ⟨200, ⟨[], false⟩⟩
        ⟨200, ⟨"!!!!"⟩⟩) ("o") ("r") ("src/a.py")
      = Except.ok ("// Error: Could not decode content for " ++ "src/a.py") :=
  ⟨by rfl, by rfl,
   c7_decode_failure_returns_marker (constApi ⟨200, ⟨"main"⟩⟩ ⟨200, ⟨⟨"c", ⟨"t"⟩⟩⟩⟩
      ⟨200, ⟨[], false⟩⟩ ⟨200, ⟨"!!!!"⟩⟩) ("o") ("r") ("src/a.py") (by rfl) (by rfl)⟩

/-- Counterexample to C7 as stated: with an undecodable payload the fetch
returns successfully with a marker string instead of failing with a
DecodeError the caller could observe as a per-file failure. -/
theorem c7_counterexample :
    atob ("!!!!") = none ∧
    getFileContent (constApi ⟨200, ⟨"main"⟩⟩ ⟨200, ⟨⟨"c", ⟨"t"⟩⟩⟩⟩ ⟨200, ⟨[], false⟩⟩
        ⟨200, ⟨"!!!!"⟩⟩) ("o") ("r") ("src/a.py")
      = Except.ok ("// Error: Could not decode content for src/a.py") :=
  ⟨by rfl, by rfl⟩

/-- C8 (amended): during one MainApp scan over n reviewable files the
progress observer receives, in order: an initial (0,0), a (0,n) after
filtering, then exactly n in-loop events with strictly increasing
currentIndex 1..n and constant total n, and a final reset to null — so the
in-loop portion is monotonic as claimed, but additional invocations with
currentIndex 0 (and one with total 0) do occur. -/
theorem c8_progress_trace (filt : String → Bool) (tree : List String) (r : RepoRef)
    (gc : String → Except String String)
    (rv : String → String → String → Except String String) :
    (handleAutonomousReview filt (Except.ok tree) (some r) gc rv).progress
      = some (0, 0) :: some (0, (tree.filter filt).length)
          :: ((List.range (tree.filter filt).length).map
                (fun j => some (j + 1, (tree.filter filt).length)) ++ [none]) := by
  simp [handleAutonomousReview, reviewLoop_progress, List.map_map, Function.comp]

/-- Counterexample to C8 as stated: a scan of one reviewable file invokes the
progress observer four times, including invocations with currentIndex 0 and
with total 0 — not exactly N = 1 times with currentIndex from 1. -/
theorem c8_counterexample :
    (handleAutonomousReview isReviewableFile (Except.ok ["a.py"]) (some ⟨"o", "r"⟩)
        gcOk rvIssue).progress = [some (0, 0), some (0, 1), some (1, 1), none] ∧
    (((handleAutonomousReview isReviewableFile (Except.ok ["a.py"]) (some ⟨"o", "r"⟩)
        gcOk rvIssue).progress.length == 1) = false) :=
  ⟨by rfl, by rfl⟩

/-- C9: for every completed MainApp scan the summary satisfies
withIssues + errors <= analyzed <= total, where withIssues and errors are
the Reviewed/Failed entry counts of the report, analyzed is the reviewable
count, and total is the size of the fetched blob tree. -/
theorem c9_report_invariant (filt : String → Bool) (tree : List String) (r : RepoRef)
    (gc : String → Except String String)
    (rv : String → String → String → Except String String) :
    ((handleAutonomousReview filt (Except.ok tree) (some r) gc rv).outcome.summaryWithIssues
       + (handleAutonomousReview filt (Except.ok tree) (some r) gc rv).outcome.summaryErrors
       ≤ (handleAutonomousReview filt (Except.ok tree) (some r) gc rv).outcome.summaryAnalyzed) ∧
    ((handleAutonomousReview filt (Except.ok tree) (some r) gc rv).outcome.summaryAnalyzed
       ≤ (handleAutonomousReview filt (Except.ok tree) (some r) gc rv).outcome.summaryTotal) ∧
    ((handleAutonomousReview filt (Except.ok tree) (some r) gc rv).outcome.summaryWithIssues
       = (handleAutonomousReview filt (Except.ok tree) (some r) gc rv).outcome.reviewPaths.length) ∧
    ((handleAutonomousReview filt (Except.ok tree) (some r) gc rv).outcome.summaryErrors
       = (handleAutonomousReview filt (Except.ok tree) (some r) gc rv).outcome.errorPaths.length) := by
  refine ⟨?_, ?_, ?_, ?_⟩
  · simpa [handleAutonomousReview] using
      reviewLoop_length_le gc rv (tree.filter filt).length (tree.filter filt) 0
  · simpa [handleAutonomousReview] using List.length_filter_le filt tree
  · simp [handleAutonomousReview, ScanOutcome.reviewPaths, ScanOutcome.summaryWithIssues]
  · simp [handleAutonomousReview, ScanOutcome.errorPaths, ScanOutcome.summaryErrors]

/-- C10: a file that passes the set-based isReviewableFile but has no
classifier language (such as a ".toml" file) is counted in the analyzed
total and consumes a progress tick, yet its content is never fetched and no
Reviewed or Failed entry is recorded for it. -/
theorem c10_unclassifiable_reviewable_skipped (tree : List String) (r : RepoRef)
    (gc : String → Except String String)
    (rv : String → String → String → Except String String) (p : String)
    (hrev : isReviewableFile p = true)
    (hlang : getLanguageForFile p = none)
    (hmem : p ∈ tree) :
    p ∈ tree.filter isReviewableFile ∧
    (handleAutonomousReview isReviewableFile (Except.ok tree) (some r) gc rv).outcome.summaryAnalyzed
      = (tree.filter isReviewableFile).length ∧
    (handleAutonomousReview isReviewableFile (Except.ok tree) (some r) gc rv).progress
      = some (0, 0) :: some (0, (tree.filter isReviewableFile).length)
          :: ((List.range (tree.filter isReviewableFile).length).map
                (fun j => some (j + 1, (tree.filter isReviewableFile).length)) ++ [none]) ∧
    p ∉ (handleAutonomousReview isReviewableFile (Except.ok tree) (some r) gc rv).fetched ∧
    p ∉ (handleAutonomousReview isReviewableFile (Except.ok tree) (some r) gc rv).outcome.reviewPaths ∧
    p ∉ (handleAutonomousReview isReviewableFile (Except.ok tree) (some r) gc rv).outcome.errorPaths := by
  have hskip : processFile gc rv p = FileStep.skip := processFile_of_lang_none gc rv p hlang
  refine ⟨List.mem_filter.mpr ⟨hmem, hrev⟩,
    by simp [handleAutonomousReview, ScanOutcome.summaryAnalyzed], ?_, ?_, ?_, ?_⟩
  · simp [handleAutonomousReview, reviewLoop_progress, List.map_map, Function.comp]
  · simp [handleAutonomousReview, reviewLoop_fetched, List.mem_filter, hskip, stepFetches]
  · simp [handleAutonomousReview, ScanOutcome.reviewPaths, reviewLoop_reviews_map,
      List.mem_filter, hskip, stepReviewed]
  · simp [handleAutonomousReview, ScanOutcome.errorPaths, reviewLoop_errors_map,
      List.mem_filter, hskip, stepFails]

/-- Witness for C10: a scan over a single ".toml" file counts it as
analyzed, ticks progress once, fetches nothing, and records nothing. -/
theorem c10_unclassifiable_reviewable_skipped_witness :
    (isReviewableFile ("a.toml") = true ∧ getLanguageForFile ("a.toml") = none) ∧
    (("a.toml" : String) ∈ ["a.toml"].filter isReviewableFile ∧
     (handleAutonomousReview isReviewableFile (Except.ok ["a.toml"]) (some ⟨"o", "r"⟩)
        gcOk rvIssue).outcome.summaryAnalyzed = (["a.toml"].filter isReviewableFile).length ∧
     (handleAutonomousReview isReviewableFile (Except.ok ["a.toml"]) (some ⟨"o", "r"⟩)
        gcOk rvIssue).progress
       = some (0, 0) :: some (0, (["a.toml"].filter isReviewableFile).length)
           :: ((List.range (["a.toml"].filter isReviewableFile).length).map
                 (fun j => some (j + 1, (["a.toml"].filter isReviewableFile).length)) ++ [none]) ∧
     ("a.toml" : String) ∉ (handleAutonomousReview isReviewableFile (Except.ok ["a.toml"])
        (some ⟨"o", "r"⟩) gcOk rvIssue).fetched ∧
     ("a.toml" : String) ∉ (handleAutonomousReview isReviewableFile (Except.ok ["a.toml"])
        (some ⟨"o", "r"⟩) gcOk rvIssue).outcome.reviewPaths ∧
     ("a.toml" : String) ∉ (handleAutonomousReview isReviewableFile (Except.ok ["a.toml"])
        (some ⟨"o", "r"⟩) gcOk rvIssue).outcome.errorPaths) :=
  ⟨⟨by rfl, by rfl⟩,
   c10_unclassifiable_reviewable_skipped ["a.toml"] ⟨"o", "r"⟩ gcOk rvIssue ("a.toml")
     (by rfl) (by rfl) (by simp)⟩

end CodeReview
